import Mathlib

/-!
Shallow embedding of `src/extension.ts` from vscode-git-paste-patch.

The extension delegates diff parsing and hunk application to the external
`diff` library and all file and UI effects to the VS Code host API.  Those
externals are modelled as oracles collected in an `Env` record:

* `parsePatch`        — `Diff.parsePatch` (throw modelled as `Except.error`);
* `libApplyPatch`     — `Diff.applyPatch`; `LibResult.failed` is the `false`
                        return, `LibResult.threw` an exception raised by the
                        library while handling the entry;
* `fs`                — `vscode.workspace.openTextDocument`: `some text` when
                        the document opens, `none` when it throws (file absent);
* `applyEditOk`       — the boolean result of `vscode.workspace.applyEdit`;
* `folderJoin`        — `vscode.Uri.joinPath(folder.uri, ·)` for the first
                        workspace folder;
* `hasWorkspaceFolder`— whether `workspaceFolders?.[0]` exists;
* `viewResolved`      — whether `this.view` has been set by
                        `resolveWebviewView` (the `this.view?.` optional chain).

`applyPatch` is then a pure function from an `Env` and the patch text to an
`ApplyOutcome` recording every observable effect: notices shown, file edits
issued, library calls made, the results panel, and the clipboard / webview
clear effects.
-/

namespace GitPastePatch

/-- The `ResultKind` union from the source: `"ok" | "new" | "fail"`. -/
inductive ResultKind where
  | ok
  | new
  | fail
  deriving DecidableEq, Repr

/-- The `ResultEntry` interface from the source: a kind and a message text. -/
structure ResultEntry where
  kind : ResultKind
  text : String
  deriving DecidableEq, Repr

/-- The fields of `Diff.ParsedDiff` that `applyPatch` reads.  The hunks are
never inspected by the extension, so they stay inside the oracle. -/
structure ParsedDiff where
  oldFileName : Option String
  newFileName : Option String
  deriving DecidableEq, Repr

/-- Result of one `Diff.applyPatch` call: the patched string, the `false`
failure return, or an exception (caught by the per-entry `catch`). -/
inductive LibResult where
  | ok (text : String)
  | failed
  | threw (message : String)
  deriving DecidableEq, Repr

/-- A warning or error message shown via `vscode.window`. -/
inductive Notice where
  | warning (message : String)
  | error (message : String)
  deriving DecidableEq, Repr

/-- One file edit issued through `vscode.workspace.applyEdit`: the relative
path, the joined target URI, the exact content handed to the edit, whether the
file was created (`createFile` + `insert`) rather than replaced, and whether
`applyEdit` reported success. -/
structure FileEdit where
  relPath : String
  target : String
  content : String
  createdNew : Bool
  applied : Bool
  deriving DecidableEq, Repr

/-- The host and library oracles visible to `applyPatch`. -/
structure Env where
  hasWorkspaceFolder : Bool
  folderJoin : String → String
  parsePatch : String → Except String (List ParsedDiff)
  libApplyPatch : String → ParsedDiff → LibResult
  fs : String → Option String
  applyEditOk : String → String → Bool
  viewResolved : Bool

/-- State threaded through the `for (const filePatch of files)` loop, plus a
trace of the edits issued and of the calls made to the library. -/
structure LoopState where
  ok : Nat
  ko : Nat
  messages : List ResultEntry
  edits : List FileEdit
  libCalls : List (String × ParsedDiff)
  deriving Repr

/-- Every observable effect of one `applyPatch` invocation. -/
structure ApplyOutcome where
  notices : List Notice
  edits : List FileEdit
  libCalls : List (String × ParsedDiff)
  panel : Option (Nat × Nat × List ResultEntry)
  clipboardCleared : Bool
  clearPosted : Bool
  deriving Repr

/-- Line 218, `originalText.replace(/\r\n/g, "\n")`: replace every (non-overlapping,
left-to-right) `"\r\n"` by `"\n"`. -/
def normalizeEol : List Char → List Char
  | [] => []
  | '\r' :: '\n' :: rest => '\n' :: normalizeEol rest
  | c :: rest => c :: normalizeEol rest

/-- String wrapper for `normalizeEol`. -/
def normalizeCrlf (s : String) : String := String.mk (normalizeEol s.data)

/-- Guard `!patchContent?.trim()`: the string is empty or whitespace-only. -/
def isBlank (s : String) : Bool := s.data.all (fun c => c.isWhitespace)

/-- One `startsWith` test plus `substring(2)`: drop the
first two characters when they are `c1` then `c2`. -/
def stripLead2 (c1 c2 : Char) (l : List Char) : List Char :=
  match l with
  | a :: b :: rest => if a = c1 ∧ b = c2 then rest else l
  | _ => l

/-- The two `if (relPath.startsWith(...)) relPath = relPath.substring(2)`
statements: strip a leading `"a/"`, then a leading `"b/"` from the result. -/
def stripDiffPrefixes (l : List Char) : List Char :=
  stripLead2 'b' '/' (stripLead2 'a' '/' l)

/-- Line 200, `relPath.replace(/\\/g, "/")`: every backslash becomes a forward slash. -/
def slashify (l : List Char) : List Char :=
  l.map (fun c => if c = '\\' then '/' else c)

/-- JavaScript `a || b` on optional strings: `a` unless it is absent or the
empty string. -/
def jsOrElse (a b : Option String) : Option String :=
  match a with
  | some s => if s = "" then b else some s
  | none => b

/-- Lines 196–200: choose `newFileName || oldFileName`, skip (`none`) when the
result is absent, empty or `"/dev/null"`, else strip `a/` then `b/` and turn
backslashes into slashes. -/
def targetPath (fp : ParsedDiff) : Option String :=
  match jsOrElse fp.newFileName fp.oldFileName with
  | none => none
  | some rel =>
    if rel = "" ∨ rel = "/dev/null" then none
    else some (String.mk (slashify (stripDiffPrefixes rel.data)))

/-- The body of the `for` loop for one `filePatch` (lines 195–262). -/
def processEntry (env : Env) (st : LoopState) (fp : ParsedDiff) : LoopState :=
  match targetPath fp with
  | none => st
  | some relPath =>
    let doc := env.fs relPath
    let originalText := doc.getD ""
    let existed := doc.isSome
    let normalizedOriginal := normalizeCrlf originalText
    let st1 := { st with libCalls := st.libCalls ++ [(normalizedOriginal, fp)] }
    match env.libApplyPatch normalizedOriginal fp with
    | LibResult.failed =>
      { st1 with ko := st1.ko + 1,
                 messages := st1.messages ++
                   [ResultEntry.mk ResultKind.fail (relPath ++ ": patch failed.")] }
    | LibResult.threw err =>
      { st1 with ko := st1.ko + 1,
                 messages := st1.messages ++
                   [ResultEntry.mk ResultKind.fail (relPath ++ ": " ++ err)] }
    | LibResult.ok patchedText =>
      let success := env.applyEditOk relPath patchedText
      let theEdit : FileEdit :=
        ⟨relPath, env.folderJoin relPath, patchedText, !existed, success⟩
      let st2 := { st1 with edits := st1.edits ++ [theEdit] }
      if success then
        { st2 with ok := st2.ok + 1,
                   messages := st2.messages ++
                     [ResultEntry.mk (if existed then ResultKind.ok else ResultKind.new)
                       (if existed then relPath ++ ": patched and saved."
                        else relPath ++ ": created and patched.")] }
      else
        { st2 with ko := st2.ko + 1,
                   messages := st2.messages ++
                     [ResultEntry.mk ResultKind.fail (relPath ++ ": could not apply edits.")] }

/-- Outcome of a guard branch: one notice, no other effect. -/
def guardOutcome (n : Notice) : ApplyOutcome :=
  ⟨[n], [], [], none, false, false⟩

/-- Method `PatchViewProvider.applyPatch` (lines 166–268). -/
def applyPatch (env : Env) (patchContent : String) : ApplyOutcome :=
  if isBlank patchContent then
    guardOutcome (Notice.warning "No patch detected.")
  else if !env.hasWorkspaceFolder then
    guardOutcome (Notice.error "Open a workspace folder first.")
  else
    match env.parsePatch patchContent with
    | Except.error msg => guardOutcome (Notice.error ("Cannot read patch: " ++ msg))
    | Except.ok files =>
      if files.isEmpty then
        guardOutcome (Notice.warning "No files found in the patch.")
      else
        let st := files.foldl (processEntry env) ⟨0, 0, [], [], []⟩
        { notices := [], edits := st.edits, libCalls := st.libCalls,
          panel := some (st.ok, st.ko, st.messages),
          clipboardCleared := true, clearPosted := env.viewResolved }

/-- The `gitPastePatch.apply` command (lines 11–14): read the clipboard and
hand the text to `applyPatch`. -/
def applyCommand (env : Env) (clipboardText : String) : ApplyOutcome :=
  applyPatch env clipboardText

/-- The `MessageKind` union of the webview messages. -/
inductive MessageKind where
  | paste
  | apply
  deriving DecidableEq, Repr

/-- The `WebviewMessage` interface from the source. -/
structure WebviewMessage where
  type : MessageKind
  text : Option String

/-- The `onDidReceiveMessage` handler (lines 61–69) restricted to its
`applyPatch` effect: an `apply` message with a string `text` calls
`applyPatch` on that text; anything else does not call it. -/
def onWebviewMessage (env : Env) (msg : WebviewMessage) : Option ApplyOutcome :=
  match msg.type, msg.text with
  | MessageKind.apply, some t => some (applyPatch env t)
  | _, _ => none

/-- The icon `<span>` chosen per message kind in `resultsHtml` (line 356). -/
def resultIcon (k : ResultKind) : String :=
  if k = ResultKind.ok then "<span class=\"codicon codicon-check ok\"></span>"
  else if k = ResultKind.new then "<span class=\"codicon codicon-new-file new\"></span>"
  else "<span class=\"codicon codicon-error ko\"></span>"

/-- One `<li>` of the results list (lines 357–360, whitespace elided). -/
def resultLine (m : ResultEntry) : String :=
  "<li><div class=\"line-icon\">" ++ resultIcon m.kind ++
    "</div><div class=\"line-text\">" ++ m.text ++ "</div></li>"

/-- The `messages.map(...).join("")` rendering from `resultsHtml` (lines 354–362). -/
def resultLines (messages : List ResultEntry) : String :=
  String.join (messages.map resultLine)

/-- The single result message the loop body produces for one entry: `none`
for a skipped entry, otherwise exactly one `ResultEntry`. -/
def entryMessage (env : Env) (fp : ParsedDiff) : Option ResultEntry :=
  match targetPath fp with
  | none => none
  | some relPath =>
    let existed := (env.fs relPath).isSome
    match env.libApplyPatch (normalizeCrlf ((env.fs relPath).getD "")) fp with
    | LibResult.failed => some (ResultEntry.mk ResultKind.fail (relPath ++ ": patch failed."))
    | LibResult.threw err => some (ResultEntry.mk ResultKind.fail (relPath ++ ": " ++ err))
    | LibResult.ok patchedText =>
      if env.applyEditOk relPath patchedText then
        some (ResultEntry.mk (if existed then ResultKind.ok else ResultKind.new)
          (if existed then relPath ++ ": patched and saved."
           else relPath ++ ": created and patched."))
      else some (ResultEntry.mk ResultKind.fail (relPath ++ ": could not apply edits."))

/-- The single file edit the loop body issues for one entry, when any. -/
def entryEdit (env : Env) (fp : ParsedDiff) : Option FileEdit :=
  match targetPath fp with
  | none => none
  | some relPath =>
    let existed := (env.fs relPath).isSome
    match env.libApplyPatch (normalizeCrlf ((env.fs relPath).getD "")) fp with
    | LibResult.ok patchedText =>
      some (FileEdit.mk relPath (env.folderJoin relPath) patchedText (!existed)
        (env.applyEditOk relPath patchedText))
    | _ => none

/-- The single library call the loop body makes for one entry, when any. -/
def entryLibCall (env : Env) (fp : ParsedDiff) : Option (String × ParsedDiff) :=
  match targetPath fp with
  | none => none
  | some relPath => some (normalizeCrlf ((env.fs relPath).getD ""), fp)

/-- Messages of kind `ok` or `new`, i.e. the entries counted by `ok++`. -/
def countOkNew (msgs : List ResultEntry) : Nat :=
  (msgs.filter (fun m => m.kind == ResultKind.ok || m.kind == ResultKind.new)).length

/-- Messages of kind `fail`, i.e. the entries counted by `ko++`. -/
def countFail (msgs : List ResultEntry) : Nat :=
  (msgs.filter (fun m => m.kind == ResultKind.fail)).length

lemma processEntry_messages (env : Env) (st : LoopState) (fp : ParsedDiff) :
    (processEntry env st fp).messages = st.messages ++ (entryMessage env fp).toList := by
  unfold processEntry entryMessage
  cases h : targetPath fp with
  | none => simp
  | some relPath =>
    cases h2 : env.libApplyPatch (normalizeCrlf ((env.fs relPath).getD "")) fp with
    | ok t =>
      by_cases h3 : env.applyEditOk relPath t <;> simp [h2, h3]
    | failed => simp [h2]
    | threw m => simp [h2]

lemma processEntry_edits (env : Env) (st : LoopState) (fp : ParsedDiff) :
    (processEntry env st fp).edits = st.edits ++ (entryEdit env fp).toList := by
  unfold processEntry entryEdit
  cases h : targetPath fp with
  | none => simp
  | some relPath =>
    cases h2 : env.libApplyPatch (normalizeCrlf ((env.fs relPath).getD "")) fp with
    | ok t =>
      by_cases h3 : env.applyEditOk relPath t <;> simp [h2, h3]
    | failed => simp [h2]
    | threw m => simp [h2]

lemma processEntry_libCalls (env : Env) (st : LoopState) (fp : ParsedDiff) :
    (processEntry env st fp).libCalls = st.libCalls ++ (entryLibCall env fp).toList := by
  unfold processEntry entryLibCall
  cases h : targetPath fp with
  | none => simp
  | some relPath =>
    cases h2 : env.libApplyPatch (normalizeCrlf ((env.fs relPath).getD "")) fp with
    | ok t =>
      by_cases h3 : env.applyEditOk relPath t <;> simp [h2, h3]
    | failed => simp [h2]
    | threw m => simp [h2]

lemma processEntry_ok (env : Env) (st : LoopState) (fp : ParsedDiff) :
    (processEntry env st fp).ok = st.ok + countOkNew (entryMessage env fp).toList := by
  unfold processEntry entryMessage countOkNew
  cases h : targetPath fp with
  | none => simp
  | some relPath =>
    cases h2 : env.libApplyPatch (normalizeCrlf ((env.fs relPath).getD "")) fp with
    | ok t =>
      by_cases h3 : env.applyEditOk relPath t <;>
        by_cases h4 : (env.fs relPath).isSome <;> simp [h2, h3, h4]
    | failed => simp [h2]
    | threw m => simp [h2]

lemma processEntry_ko (env : Env) (st : LoopState) (fp : ParsedDiff) :
    (processEntry env st fp).ko = st.ko + countFail (entryMessage env fp).toList := by
  unfold processEntry entryMessage countFail
  cases h : targetPath fp with
  | none => simp
  | some relPath =>
    cases h2 : env.libApplyPatch (normalizeCrlf ((env.fs relPath).getD "")) fp with
    | ok t =>
      by_cases h3 : env.applyEditOk relPath t <;>
        by_cases h4 : (env.fs relPath).isSome <;> simp [h2, h3, h4]
    | failed => simp [h2]
    | threw m => simp [h2]

lemma countOkNew_append (a b : List ResultEntry) :
    countOkNew (a ++ b) = countOkNew a + countOkNew b := by
  simp [countOkNew, List.filter_append]

lemma countFail_append (a b : List ResultEntry) :
    countFail (a ++ b) = countFail a + countFail b := by
  simp [countFail, List.filter_append]

lemma countOkNew_add_countFail (msgs : List ResultEntry) :
    countOkNew msgs + countFail msgs = msgs.length := by
  induction msgs with
  | nil => rfl
  | cons m rest ih =>
    cases hk : m.kind <;>
      simp only [countOkNew, countFail, List.filter_cons, hk] <;>
      simp_all [countOkNew, countFail] <;> omega

lemma foldl_messages (env : Env) (files : List ParsedDiff) (st : LoopState) :
    (files.foldl (processEntry env) st).messages =
      st.messages ++ files.filterMap (entryMessage env) := by
  induction files generalizing st with
  | nil => simp
  | cons fp rest ih =>
    simp only [List.foldl_cons, List.filterMap_cons]
    rw [ih, processEntry_messages]
    cases entryMessage env fp <;> simp

lemma foldl_edits (env : Env) (files : List ParsedDiff) (st : LoopState) :
    (files.foldl (processEntry env) st).edits =
      st.edits ++ files.filterMap (entryEdit env) := by
  induction files generalizing st with
  | nil => simp
  | cons fp rest ih =>
    simp only [List.foldl_cons, List.filterMap_cons]
    rw [ih, processEntry_edits]
    cases entryEdit env fp <;> simp

lemma foldl_libCalls (env : Env) (files : List ParsedDiff) (st : LoopState) :
    (files.foldl (processEntry env) st).libCalls =
      st.libCalls ++ files.filterMap (entryLibCall env) := by
  induction files generalizing st with
  | nil => simp
  | cons fp rest ih =>
    simp only [List.foldl_cons, List.filterMap_cons]
    rw [ih, processEntry_libCalls]
    cases entryLibCall env fp <;> simp

lemma foldl_ok (env : Env) (files : List ParsedDiff) (st : LoopState) :
    (files.foldl (processEntry env) st).ok =
      st.ok + countOkNew (files.filterMap (entryMessage env)) := by
  induction files generalizing st with
  | nil => simp [countOkNew]
  | cons fp rest ih =>
    simp only [List.foldl_cons, List.filterMap_cons]
    rw [ih, processEntry_ok]
    cases h : entryMessage env fp with
    | none => simp [countOkNew]
    | some v =>
      have hsplit : v :: List.filterMap (entryMessage env) rest =
          [v] ++ List.filterMap (entryMessage env) rest := rfl
      simp only [Option.toList, hsplit, countOkNew_append]
      omega

lemma foldl_ko (env : Env) (files : List ParsedDiff) (st : LoopState) :
    (files.foldl (processEntry env) st).ko =
      st.ko + countFail (files.filterMap (entryMessage env)) := by
  induction files generalizing st with
  | nil => simp [countFail]
  | cons fp rest ih =>
    simp only [List.foldl_cons, List.filterMap_cons]
    rw [ih, processEntry_ko]
    cases h : entryMessage env fp with
    | none => simp [countFail]
    | some v =>
      have hsplit : v :: List.filterMap (entryMessage env) rest =
          [v] ++ List.filterMap (entryMessage env) rest := rfl
      simp only [Option.toList, hsplit, countFail_append]
      omega

lemma applyPatch_loop (env : Env) (s : String) (files : List ParsedDiff)
    (hb : isBlank s = false) (hw : env.hasWorkspaceFolder = true)
    (hp : env.parsePatch s = Except.ok files) (hne : files ≠ []) :
    applyPatch env s =
      { notices := [],
        edits := files.filterMap (entryEdit env),
        libCalls := files.filterMap (entryLibCall env),
        panel := some (countOkNew (files.filterMap (entryMessage env)),
                       countFail (files.filterMap (entryMessage env)),
                       files.filterMap (entryMessage env)),
        clipboardCleared := true, clearPosted := env.viewResolved } := by
  have hemp : files.isEmpty = false := by
    cases files with
    | nil => exact absurd rfl hne
    | cons a l => rfl
  unfold applyPatch
  rw [hb, hw, hp]
  simp only [Bool.not_true, Bool.false_eq_true, if_false, hemp]
  simp only [foldl_messages, foldl_edits, foldl_libCalls, foldl_ok, foldl_ko,
    List.nil_append, Nat.zero_add]

lemma entryEdit_spec (env : Env) (fp : ParsedDiff) (e : FileEdit)
    (h : entryEdit env fp = some e) :
    targetPath fp = some e.relPath ∧
    env.libApplyPatch (normalizeCrlf ((env.fs e.relPath).getD "")) fp =
      LibResult.ok e.content ∧
    e.target = env.folderJoin e.relPath ∧
    e.createdNew = !(env.fs e.relPath).isSome ∧
    e.applied = env.applyEditOk e.relPath e.content := by
  unfold entryEdit at h
  cases ht : targetPath fp with
  | none => rw [ht] at h; exact absurd h (by simp)
  | some rel =>
    rw [ht] at h
    cases hl : env.libApplyPatch (normalizeCrlf ((env.fs rel).getD "")) fp with
    | ok t =>
      simp only [hl] at h
      cases h
      exact ⟨rfl, hl, rfl, rfl, rfl⟩
    | failed => simp [hl] at h
    | threw m => simp [hl] at h

lemma entryLibCall_spec (env : Env) (fp : ParsedDiff) (c : String × ParsedDiff)
    (h : entryLibCall env fp = some c) :
    ∃ rel, targetPath fp = some rel ∧
      c = (normalizeCrlf ((env.fs rel).getD ""), fp) := by
  unfold entryLibCall at h
  cases ht : targetPath fp with
  | none => rw [ht] at h; exact absurd h (by simp)
  | some rel =>
    rw [ht] at h
    cases h
    exact ⟨rel, rfl, rfl⟩

lemma applyPatch_edits_mem (env : Env) (s : String) (e : FileEdit)
    (he : e ∈ (applyPatch env s).edits) :
    ∃ files, env.parsePatch s = Except.ok files ∧
      ∃ fp ∈ files, entryEdit env fp = some e := by
  by_cases hb : isBlank s
  · simp [applyPatch, hb, guardOutcome] at he
  by_cases hw : env.hasWorkspaceFolder
  · cases hp : env.parsePatch s with
    | error m => simp [applyPatch, hb, hw, hp, guardOutcome] at he
    | ok files =>
      by_cases hne : files = []
      · subst hne; simp [applyPatch, hb, hw, hp, guardOutcome] at he
      · rw [applyPatch_loop env s files (by simpa using hb) (by simpa using hw) hp hne] at he
        simp only [List.mem_filterMap] at he
        obtain ⟨fp, hfp, hee⟩ := he
        exact ⟨files, rfl, fp, hfp, hee⟩
  · simp [applyPatch, hb, hw, guardOutcome] at he

lemma applyPatch_libCalls_mem (env : Env) (s : String) (c : String × ParsedDiff)
    (hc : c ∈ (applyPatch env s).libCalls) :
    ∃ files, env.parsePatch s = Except.ok files ∧
      ∃ fp ∈ files, entryLibCall env fp = some c := by
  by_cases hb : isBlank s
  · simp [applyPatch, hb, guardOutcome] at hc
  by_cases hw : env.hasWorkspaceFolder
  · cases hp : env.parsePatch s with
    | error m => simp [applyPatch, hb, hw, hp, guardOutcome] at hc
    | ok files =>
      by_cases hne : files = []
      · subst hne; simp [applyPatch, hb, hw, hp, guardOutcome] at hc
      · rw [applyPatch_loop env s files (by simpa using hb) (by simpa using hw) hp hne] at hc
        simp only [List.mem_filterMap] at hc
        obtain ⟨fp, hfp, hcc⟩ := hc
        exact ⟨files, rfl, fp, hfp, hcc⟩
  · simp [applyPatch, hb, hw, guardOutcome] at hc

lemma applyPatch_panel_some (env : Env) (s : String) (ok ko : Nat)
    (msgs : List ResultEntry)
    (h : (applyPatch env s).panel = some (ok, ko, msgs)) :
    ∃ files, env.parsePatch s = Except.ok files ∧ files ≠ [] ∧
      msgs = files.filterMap (entryMessage env) ∧
      ok = countOkNew msgs ∧ ko = countFail msgs := by
  by_cases hb : isBlank s
  · simp [applyPatch, hb, guardOutcome] at h
  by_cases hw : env.hasWorkspaceFolder
  · cases hp : env.parsePatch s with
    | error m => simp [applyPatch, hb, hw, hp, guardOutcome] at h
    | ok files =>
      by_cases hne : files = []
      · subst hne; simp [applyPatch, hb, hw, hp, guardOutcome] at h
      · rw [applyPatch_loop env s files (by simpa using hb) (by simpa using hw) hp hne] at h
        simp only [Option.some.injEq, Prod.mk.injEq] at h
        obtain ⟨hok, hko, hmsgs⟩ := h
        exact ⟨files, rfl, hne, hmsgs.symm, by rw [← hok, hmsgs], by rw [← hko, hmsgs]⟩
  · simp [applyPatch, hb, hw, guardOutcome] at h

/-- A concrete parsed entry used to instantiate the theorems below. -/
def sampleEntry : ParsedDiff := ParsedDiff.mk (some "a/f.txt") (some "a/f.txt")

/-- A concrete environment in which one entry patches successfully. -/
def sampleEnv : Env where
  hasWorkspaceFolder := true
  folderJoin := fun r => "/ws/" ++ r
  parsePatch := fun _ => Except.ok [sampleEntry]
  libApplyPatch := fun s _ => LibResult.ok (s ++ "!")
  fs := fun _ => some "hello\r\nworld"
  applyEditOk := fun _ _ => true
  viewResolved := true

/-- A concrete environment in which the library rejects the entry and the
input view has never been resolved. -/
def failEnv : Env where
  hasWorkspaceFolder := true
  folderJoin := fun r => "/ws/" ++ r
  parsePatch := fun _ => Except.ok [sampleEntry]
  libApplyPatch := fun _ _ => LibResult.failed
  fs := fun _ => none
  applyEditOk := fun _ _ => false
  viewResolved := false

/-- C1: every file edit `applyPatch` applies successfully writes exactly the
string the external library returned for the CRLF-normalized original text
(the empty string when the file did not exist); nothing is transformed
between the library output and the host file-edit call. -/
theorem C1_edit_writes_library_output (env : Env) (s : String) (e : FileEdit)
    (he : e ∈ (applyPatch env s).edits) (_ha : e.applied = true) :
    ∃ files, env.parsePatch s = Except.ok files ∧
      ∃ fp ∈ files, targetPath fp = some e.relPath ∧
        env.libApplyPatch (normalizeCrlf ((env.fs e.relPath).getD "")) fp =
          LibResult.ok e.content := by
  obtain ⟨files, hp, fp, hfp, hee⟩ := applyPatch_edits_mem env s e he
  obtain ⟨ht, hl, -, -, -⟩ := entryEdit_spec env fp e hee
  exact ⟨files, hp, fp, hfp, ht, hl⟩

/-- Witness for C1 at `sampleEnv`: the hypotheses hold for the concrete edit
of `"f.txt"`, and the conclusion is obtained from the theorem. -/
theorem C1_edit_writes_library_output_witness :
    (FileEdit.mk "f.txt" "/ws/f.txt" "hello\nworld!" false true ∈
        (applyPatch sampleEnv "diff").edits) ∧
    (∃ files, sampleEnv.parsePatch "diff" = Except.ok files ∧
      ∃ fp ∈ files, targetPath fp = some "f.txt" ∧
        sampleEnv.libApplyPatch (normalizeCrlf ((sampleEnv.fs "f.txt").getD "")) fp =
          LibResult.ok "hello\nworld!") :=
  ⟨by decide,
    C1_edit_writes_library_output sampleEnv "diff"
      (FileEdit.mk "f.txt" "/ws/f.txt" "hello\nworld!" false true)
      (by decide) (by decide)⟩

/-- C2: every call `applyPatch` makes to the external library receives as its
document argument the CRLF-normalization of the original text, and as its
patch argument a parsed entry exactly as the parser returned it. -/
theorem C2_normalizes_original_only (env : Env) (s : String)
    (c : String × ParsedDiff) (hc : c ∈ (applyPatch env s).libCalls) :
    ∃ files, env.parsePatch s = Except.ok files ∧ c.2 ∈ files ∧
      ∃ rel, targetPath c.2 = some rel ∧
        c.1 = normalizeCrlf ((env.fs rel).getD "") := by
  obtain ⟨files, hp, fp, hfp, hcc⟩ := applyPatch_libCalls_mem env s c hc
  obtain ⟨rel, ht, hceq⟩ := entryLibCall_spec env fp c hcc
  subst hceq
  exact ⟨files, hp, hfp, rel, ht, rfl⟩

/-- Witness for C2 at `sampleEnv`: the concrete library call on `"f.txt"`. -/
theorem C2_normalizes_original_only_witness :
    (("hello\nworld", sampleEntry) ∈ (applyPatch sampleEnv "diff").libCalls) ∧
    (∃ files, sampleEnv.parsePatch "diff" = Except.ok files ∧
      sampleEntry ∈ files ∧
      ∃ rel, targetPath sampleEntry = some rel ∧
        "hello\nworld" = normalizeCrlf ((sampleEnv.fs rel).getD "")) :=
  ⟨by decide,
    C2_normalizes_original_only sampleEnv "diff" ("hello\nworld", sampleEntry)
      (by decide)⟩

/-- C3: when the library returns `false` or throws for an entry, the loop body
makes exactly one library call for it, increments only the failure counter,
appends exactly one `fail` result entry, issues no file edit, and the loop
continues with the next entry from the updated state. -/
theorem C3_failure_no_retry_continues (env : Env) (st : LoopState)
    (fp : ParsedDiff) (relPath : String) (ht : targetPath fp = some relPath)
    (hf : env.libApplyPatch (normalizeCrlf ((env.fs relPath).getD "")) fp =
            LibResult.failed ∨
          ∃ m, env.libApplyPatch (normalizeCrlf ((env.fs relPath).getD "")) fp =
            LibResult.threw m) :
    (processEntry env st fp).ok = st.ok ∧
    (processEntry env st fp).ko = st.ko + 1 ∧
    (∃ txt, (processEntry env st fp).messages =
      st.messages ++ [ResultEntry.mk ResultKind.fail txt]) ∧
    (processEntry env st fp).edits = st.edits ∧
    (processEntry env st fp).libCalls =
      st.libCalls ++ [(normalizeCrlf ((env.fs relPath).getD ""), fp)] ∧
    (∀ rest : List ParsedDiff,
      (fp :: rest).foldl (processEntry env) st =
        rest.foldl (processEntry env) (processEntry env st fp)) := by
  rcases hf with hf | ⟨m, hf⟩
  · refine ⟨?_, ?_, ⟨relPath ++ ": patch failed.", ?_⟩, ?_, ?_, fun rest => rfl⟩ <;>
      simp [processEntry, ht, hf]
  · refine ⟨?_, ?_, ⟨relPath ++ ": " ++ m, ?_⟩, ?_, ?_, fun rest => rfl⟩ <;>
      simp [processEntry, ht, hf]

/-- Witness for C3 at `failEnv`: the library rejects the single entry. -/
theorem C3_failure_no_retry_continues_witness :
    (targetPath sampleEntry = some "f.txt") ∧
    (failEnv.libApplyPatch (normalizeCrlf ((failEnv.fs "f.txt").getD ""))
        sampleEntry = LibResult.failed) ∧
    ((processEntry failEnv (LoopState.mk 0 0 [] [] []) sampleEntry).ok = 0 ∧
     (processEntry failEnv (LoopState.mk 0 0 [] [] []) sampleEntry).ko = 0 + 1 ∧
     (∃ txt, (processEntry failEnv (LoopState.mk 0 0 [] [] []) sampleEntry).messages =
       [] ++ [ResultEntry.mk ResultKind.fail txt]) ∧
     (processEntry failEnv (LoopState.mk 0 0 [] [] []) sampleEntry).edits = [] ∧
     (processEntry failEnv (LoopState.mk 0 0 [] [] []) sampleEntry).libCalls =
       [] ++ [(normalizeCrlf ((failEnv.fs "f.txt").getD ""), sampleEntry)] ∧
     (∀ rest : List ParsedDiff,
       (sampleEntry :: rest).foldl (processEntry failEnv) (LoopState.mk 0 0 [] [] []) =
         rest.foldl (processEntry failEnv)
           (processEntry failEnv (LoopState.mk 0 0 [] [] []) sampleEntry))) :=
  ⟨by decide, by decide,
    C3_failure_no_retry_continues failEnv (LoopState.mk 0 0 [] [] []) sampleEntry
      "f.txt" (by decide) (Or.inl (by decide))⟩

/-- C4: the parsed entries are folded over strictly in parser order; the
messages list of the results panel is exactly the in-order list of per-entry
messages (one per non-skipped entry), and the rendered list keeps that
order. -/
theorem C4_messages_in_parser_order (env : Env) (s : String) (ok ko : Nat)
    (msgs : List ResultEntry) (files : List ParsedDiff)
    (hp : env.parsePatch s = Except.ok files)
    (h : (applyPatch env s).panel = some (ok, ko, msgs)) :
    msgs = files.filterMap (entryMessage env) ∧
    resultLines msgs =
      String.join ((files.filterMap (entryMessage env)).map resultLine) := by
  obtain ⟨files', hp', -, hmsgs, -, -⟩ := applyPatch_panel_some env s ok ko msgs h
  have hfe : files' = files := Except.ok.inj (hp'.symm.trans hp)
  subst hfe
  exact ⟨hmsgs, by rw [hmsgs]; rfl⟩

/-- Witness for C4 at `sampleEnv`: the single successful entry. -/
theorem C4_messages_in_parser_order_witness :
    (sampleEnv.parsePatch "diff" = Except.ok [sampleEntry]) ∧
    ((applyPatch sampleEnv "diff").panel =
      some (1, 0, [ResultEntry.mk ResultKind.ok "f.txt: patched and saved."])) ∧
    ([ResultEntry.mk ResultKind.ok "f.txt: patched and saved."] =
        [sampleEntry].filterMap (entryMessage sampleEnv) ∧
      resultLines [ResultEntry.mk ResultKind.ok "f.txt: patched and saved."] =
        String.join (([sampleEntry].filterMap (entryMessage sampleEnv)).map resultLine)) :=
  ⟨rfl, by decide,
    C4_messages_in_parser_order sampleEnv "diff" 1 0
      [ResultEntry.mk ResultKind.ok "f.txt: patched and saved."] [sampleEntry]
      rfl (by decide)⟩

/-- C5: in the results panel, `ok` counts the `ok`/`new` messages, `ko` counts
the `fail` messages, `ok + ko` is the number of messages, and `ok + ko` never
exceeds the number of entries returned by the parser. -/
theorem C5_counter_invariants (env : Env) (s : String) (ok ko : Nat)
    (msgs : List ResultEntry) (files : List ParsedDiff)
    (hp : env.parsePatch s = Except.ok files)
    (h : (applyPatch env s).panel = some (ok, ko, msgs)) :
    ok = countOkNew msgs ∧ ko = countFail msgs ∧
    ok + ko = msgs.length ∧ ok + ko ≤ files.length := by
  obtain ⟨files', hp', -, hmsgs, hok, hko⟩ := applyPatch_panel_some env s ok ko msgs h
  have hfe : files' = files := Except.ok.inj (hp'.symm.trans hp)
  subst hfe
  refine ⟨hok, hko, ?_, ?_⟩
  · rw [hok, hko, countOkNew_add_countFail]
  · rw [hok, hko, countOkNew_add_countFail, hmsgs]
    exact List.length_filterMap_le _ _

/-- Witness for C5 at `sampleEnv`. -/
theorem C5_counter_invariants_witness :
    (sampleEnv.parsePatch "diff" = Except.ok [sampleEntry]) ∧
    ((applyPatch sampleEnv "diff").panel =
      some (1, 0, [ResultEntry.mk ResultKind.ok "f.txt: patched and saved."])) ∧
    (1 = countOkNew [ResultEntry.mk ResultKind.ok "f.txt: patched and saved."] ∧
     0 = countFail [ResultEntry.mk ResultKind.ok "f.txt: patched and saved."] ∧
     1 + 0 = [ResultEntry.mk ResultKind.ok "f.txt: patched and saved."].length ∧
     1 + 0 ≤ [sampleEntry].length) :=
  ⟨rfl, by decide,
    C5_counter_invariants sampleEnv "diff" 1 0
      [ResultEntry.mk ResultKind.ok "f.txt: patched and saved."] [sampleEntry]
      rfl (by decide)⟩

/-- C6: every file edit issued targets the join of the first workspace folder
with a relative path that `targetPath` derives from some parsed entry; hence
paths not derived from any entry are never edited. -/
theorem C6_edits_only_derived_paths (env : Env) (s : String) (e : FileEdit)
    (he : e ∈ (applyPatch env s).edits) :
    e.target = env.folderJoin e.relPath ∧
    ∃ files, env.parsePatch s = Except.ok files ∧
      ∃ fp ∈ files, targetPath fp = some e.relPath := by
  obtain ⟨files, hp, fp, hfp, hee⟩ := applyPatch_edits_mem env s e he
  obtain ⟨ht, -, htg, -, -⟩ := entryEdit_spec env fp e hee
  exact ⟨htg, files, hp, fp, hfp, ht⟩

/-- Witness for C6 at `sampleEnv`. -/
theorem C6_edits_only_derived_paths_witness :
    (FileEdit.mk "f.txt" "/ws/f.txt" "hello\nworld!" false true ∈
        (applyPatch sampleEnv "diff").edits) ∧
    ("/ws/f.txt" = sampleEnv.folderJoin "f.txt" ∧
      ∃ files, sampleEnv.parsePatch "diff" = Except.ok files ∧
        ∃ fp ∈ files, targetPath fp = some "f.txt") :=
  ⟨by decide,
    C6_edits_only_derived_paths sampleEnv "diff"
      (FileEdit.mk "f.txt" "/ws/f.txt" "hello\nworld!" false true) (by decide)⟩

/-- C7: the `gitPastePatch.apply` command hands the clipboard text to
`applyPatch` unchanged, and the webview `apply` message hands its text-area
string to `applyPatch` unchanged; other messages never call it. -/
theorem C7_command_and_webview_delegate (env : Env) (clip t : String) :
    applyCommand env clip = applyPatch env clip ∧
    onWebviewMessage env (WebviewMessage.mk MessageKind.apply (some t)) =
      some (applyPatch env t) ∧
    (∀ u : Option String,
      onWebviewMessage env (WebviewMessage.mk MessageKind.paste u) = none) ∧
    onWebviewMessage env (WebviewMessage.mk MessageKind.apply none) = none :=
  ⟨rfl, rfl, fun _ => rfl, rfl⟩

/-- C8: each of the four guards — blank input, no workspace folder, parser
throw, empty parse result — shows exactly one notice and has no other
effect: no edit, no results panel, no clipboard clear, no view clear. -/
theorem C8_guards_single_notice_no_effects (env : Env) (s : String)
    (h : isBlank s = true ∨
         (isBlank s = false ∧ env.hasWorkspaceFolder = false) ∨
         (isBlank s = false ∧ env.hasWorkspaceFolder = true ∧
           ∃ m, env.parsePatch s = Except.error m) ∨
         (isBlank s = false ∧ env.hasWorkspaceFolder = true ∧
           env.parsePatch s = Except.ok [])) :
    (∃ n, (applyPatch env s).notices = [n]) ∧
    (applyPatch env s).edits = [] ∧
    (applyPatch env s).panel = none ∧
    (applyPatch env s).clipboardCleared = false ∧
    (applyPatch env s).clearPosted = false := by
  rcases h with h | ⟨h1, h2⟩ | ⟨h1, h2, m, h3⟩ | ⟨h1, h2, h3⟩
  · simp [applyPatch, h, guardOutcome]
  · simp [applyPatch, h1, h2, guardOutcome]
  · simp [applyPatch, h1, h2, h3, guardOutcome]
  · simp [applyPatch, h1, h2, h3, guardOutcome]

/-- Witness for C8: the blank-input guard. -/
theorem C8_guards_single_notice_no_effects_witness :
    (isBlank "" = true) ∧
    ((∃ n, (applyPatch sampleEnv "").notices = [n]) ∧
     (applyPatch sampleEnv "").edits = [] ∧
     (applyPatch sampleEnv "").panel = none ∧
     (applyPatch sampleEnv "").clipboardCleared = false ∧
     (applyPatch sampleEnv "").clearPosted = false) :=
  ⟨by decide,
    C8_guards_single_notice_no_effects sampleEnv "" (Or.inl (by decide))⟩

lemma stripLead2_take_drop (c1 c2 : Char) (l : List Char) :
    stripLead2 c1 c2 l = if l.take 2 = [c1, c2] then l.drop 2 else l := by
  rcases l with _ | ⟨a, _ | ⟨b, rest⟩⟩ <;> simp [stripLead2]

/-- The path-resolution rule in the words of claim C9: the target relative
path is `newFileName` when present (and non-empty), otherwise `oldFileName`;
a path that is absent, empty or `"/dev/null"` means the entry is skipped;
otherwise a leading `"a/"` is stripped, then a leading `"b/"` from the
remainder, and every backslash becomes a forward slash. -/
def claimPath (fp : ParsedDiff) : Option String :=
  let chosen : Option String :=
    match fp.newFileName with
    | some n => if n = "" then fp.oldFileName else some n
    | none => fp.oldFileName
  match chosen with
  | none => none
  | some p =>
    if p = "" ∨ p = "/dev/null" then none
    else
      let q := if p.data.take 2 = ['a', '/'] then p.data.drop 2 else p.data
      let r := if q.take 2 = ['b', '/'] then q.drop 2 else q
      some (String.mk (r.map fun c => if c = '\\' then '/' else c))

/-- C9: the loop's path resolution agrees everywhere with the rule stated in
the claim, and in particular `"a/b/x"` resolves to `"x"`. -/
theorem C9_target_path_matches_claim (fp : ParsedDiff) :
    targetPath fp = claimPath fp ∧
    targetPath (ParsedDiff.mk none (some "a/b/x")) = some "x" := by
  refine ⟨?_, by decide⟩
  rcases fp with ⟨old, new⟩
  cases new with
  | none =>
    cases old with
    | none => rfl
    | some o =>
      by_cases h : o = "" ∨ o = "/dev/null"
      · simp [targetPath, claimPath, jsOrElse, h]
      · simp [targetPath, claimPath, jsOrElse, h, stripDiffPrefixes,
          stripLead2_take_drop, slashify]
  | some n =>
    by_cases hn : n = ""
    · subst hn
      cases old with
      | none => rfl
      | some o =>
        by_cases h : o = "" ∨ o = "/dev/null"
        · simp [targetPath, claimPath, jsOrElse, h]
        · simp [targetPath, claimPath, jsOrElse, h, stripDiffPrefixes,
            stripLead2_take_drop, slashify]
    · by_cases h : n = "" ∨ n = "/dev/null"
      · have hd : n = "/dev/null" := h.resolve_left hn
        simp [targetPath, claimPath, jsOrElse, hn, hd]
      · simp [targetPath, claimPath, jsOrElse, hn, h, stripDiffPrefixes,
          stripLead2_take_drop, slashify]

/-- C10 counterexample: in `failEnv` the per-file loop runs (the results
panel opens) and the clipboard is cleared, yet no clear message is posted,
because the input view was never resolved — so the posting is not
unconditional. -/
theorem C10_clear_message_not_unconditional :
    (applyPatch failEnv "x").panel.isSome = true ∧
    (applyPatch failEnv "x").clipboardCleared = true ∧
    (applyPatch failEnv "x").clearPosted = false := by decide

/-- C10 as amended: whenever the per-file loop runs, `applyPatch` ends by
clearing the clipboard unconditionally, and posts the clear message exactly
when the input view has been resolved. -/
theorem C10_clipboard_cleared_clear_posted_iff_view (env : Env) (s : String)
    (h : (applyPatch env s).panel.isSome = true) :
    (applyPatch env s).clipboardCleared = true ∧
    (applyPatch env s).clearPosted = env.viewResolved := by
  by_cases hb : isBlank s
  · simp [applyPatch, hb, guardOutcome] at h
  by_cases hw : env.hasWorkspaceFolder
  · cases hp : env.parsePatch s with
    | error m => simp [applyPatch, hb, hw, hp, guardOutcome] at h
    | ok files =>
      by_cases hne : files = []
      · subst hne; simp [applyPatch, hb, hw, hp, guardOutcome] at h
      · rw [applyPatch_loop env s files (by simpa using hb) (by simpa using hw) hp hne]
        exact ⟨rfl, rfl⟩
  · simp [applyPatch, hb, hw, guardOutcome] at h

/-- Witness for the amended C10 at `sampleEnv`. -/
theorem C10_clipboard_cleared_clear_posted_iff_view_witness :
    ((applyPatch sampleEnv "diff").panel.isSome = true) ∧
    ((applyPatch sampleEnv "diff").clipboardCleared = true ∧
     (applyPatch sampleEnv "diff").clearPosted = sampleEnv.viewResolved) :=
  ⟨by decide,
    C10_clipboard_cleared_clear_posted_iff_view sampleEnv "diff" (by decide)⟩

end GitPastePatch
